import Mathlib

/-!
Shallow embedding of the order/lesson backend (Express + MongoDB coursework
server).  The two server variants live in `src/unnamed/part_000` (the full
middleware variant) and `src/unnamed/part_001` (the early variant); their
domain logic — `escapeRegex`, `toObjectIdSafe`, `buildOrderDoc`, the
`GET /lessons` query construction and the `PUT /lessons/:id` update handler —
is embedded here over an explicit model of JavaScript runtime values.

JavaScript numbers are modelled exactly on the fragment the program uses:
every number the code can produce is a decimal fraction `num / 10 ^ e10`
(the code performs no arithmetic beyond `Number(...)` coercion, `Math.min`,
`Math.max` and comparisons), together with the special values `NaN`,
`Infinity` and `-Infinity`.
-/

namespace Backend

/-- A finite JavaScript number, represented exactly as `num / 10 ^ e10`. -/
structure JsRat where
  num : Int
  e10 : Nat
deriving DecidableEq

/-- A JavaScript number: `NaN`, `±Infinity`, or a finite decimal value. -/
inductive JsNum where
  | nan
  | posInf
  | negInf
  | fin (r : JsRat)
deriving DecidableEq

/-- A JavaScript runtime value as delivered by `express.json` / `req.query`:
`undefined`, `null`, booleans, numbers, strings, arrays and plain objects. -/
inductive JsVal where
  | undefined
  | null
  | bool (b : Bool)
  | num (n : JsNum)
  | str (s : String)
  | arr (elems : List JsVal)
  | obj (fields : List (String × JsVal))

/-- Numeric value of a `JsRat` as a rational, used to state order facts. -/
def JsRat.toQ (r : JsRat) : ℚ := (r.num : ℚ) / (10 : ℚ) ^ r.e10

/-- Numeric comparison `a <= b` on decimal fractions (denominators are the
positive numbers `10 ^ e10`, so cross-multiplication is exact). -/
def JsRat.le (a b : JsRat) : Bool :=
  a.num * (10 : Int) ^ b.e10 ≤ b.num * (10 : Int) ^ a.e10

/-- Truthiness of a JavaScript number (`NaN` and `0` are falsy). -/
def JsNum.truthy : JsNum → Bool
  | .nan => false
  | .posInf => true
  | .negInf => true
  | .fin r => r.num != 0

/-- `Number.isFinite(n) && n > 0`, the positivity test used on `space`. -/
def JsNum.isPos : JsNum → Bool
  | .fin r => 0 < r.num
  | _ => false

/-- `Number.isFinite(n)`, as used by the `PUT /lessons/:id` handler. -/
def JsNum.isFinite : JsNum → Bool
  | .fin _ => true
  | _ => false

/-- `Math.max` on JavaScript numbers: `NaN` absorbs, otherwise the larger
value (the code only ever applies it to finite constants and inputs). -/
def jsMax (a b : JsNum) : JsNum :=
  match a, b with
  | .nan, _ => .nan
  | _, .nan => .nan
  | .posInf, _ => .posInf
  | _, .posInf => .posInf
  | .negInf, b => b
  | a, .negInf => a
  | .fin p, .fin q => if JsRat.le p q then .fin q else .fin p

/-- `Math.min` on JavaScript numbers. -/
def jsMin (a b : JsNum) : JsNum :=
  match a, b with
  | .nan, _ => .nan
  | _, .nan => .nan
  | .negInf, _ => .negInf
  | _, .negInf => .negInf
  | .posInf, b => b
  | a, .posInf => a
  | .fin p, .fin q => if JsRat.le p q then .fin p else .fin q

/-- JavaScript truthiness of a runtime value. -/
def jsTruthy : JsVal → Bool
  | .undefined => false
  | .null => false
  | .bool b => b
  | .num n => n.truthy
  | .str s => !s.isEmpty
  | .arr _ => true
  | .obj _ => true

/-- The `undefined` test `typeof v !== 'undefined'` is the negation of this. -/
def jsIsUndefined : JsVal → Bool
  | .undefined => true
  | _ => false

/-- The loose test `v != null`, false exactly for `null` and `undefined`. -/
def jsIsNullish : JsVal → Bool
  | .undefined => true
  | .null => true
  | _ => false

/-- First binding of a key in an object's field list. -/
def lookupField : List (String × JsVal) → String → Option JsVal
  | [], _ => none
  | (k, v) :: fs, key => if k = key then some v else lookupField fs key

/-- Property read `base[key]`.  `none` models the `TypeError` thrown when the
base is `null` or `undefined`; on other primitives and arrays the properties
this program reads (`name`, `phone`, `space`, `lessonId`, ...) are absent,
giving `undefined`. -/
def jsGetProp : JsVal → String → Option JsVal
  | .undefined, _ => none
  | .null, _ => none
  | .obj fs, key => some ((lookupField fs key).getD .undefined)
  | _, _ => some .undefined

/-- JavaScript whitespace accepted (and trimmed) by `Number(string)`. -/
def jsWhitespaceChars : List Char := [' ', '\t', '\n', '\r', Char.ofNat 11, Char.ofNat 12, Char.ofNat 0xA0, Char.ofNat 0xFEFF]

/-- Trim JavaScript whitespace from both ends of a character list. -/
def trimJsWs (cs : List Char) : List Char :=
  ((cs.dropWhile (jsWhitespaceChars.contains ·)).reverse.dropWhile (jsWhitespaceChars.contains ·)).reverse

def isDigitChar (c : Char) : Bool := '0' ≤ c && c ≤ '9'

def isHexDigitChar (c : Char) : Bool :=
  isDigitChar c || ('a' ≤ c && c ≤ 'f') || ('A' ≤ c && c ≤ 'F')

/-- Numeric value of one hexadecimal digit. -/
def hexDigitVal (c : Char) : Nat :=
  if isDigitChar c then c.toNat - 48
  else if 'a' ≤ c && c ≤ 'f' then c.toNat - 87
  else c.toNat - 55

/-- Value of a list of base-`b` digits (most significant first). -/
def digitsVal (b : Nat) (cs : List Char) : Nat :=
  cs.foldl (fun a c => a * b + hexDigitVal c) 0

/-- Build the decimal value `m / 10 ^ fracLen * 10 ^ e` as a `JsRat`. -/
def mkDecimal (m : Nat) (fracLen : Nat) (e : Int) : JsRat :=
  let p : Int := e - (fracLen : Int)
  if 0 ≤ p then ⟨(m : Int) * (10 : Int) ^ p.toNat, 0⟩ else ⟨(m : Int), (-p).toNat⟩

/-- Parse the optional exponent tail `[eE][+-]?digits` of a decimal literal;
the whole remainder must be consumed. -/
def parseExpTail (cs : List Char) : Option Int :=
  match cs with
  | [] => some 0
  | c :: rest =>
    if c = 'e' || c = 'E' then
      match rest with
      | '+' :: ds => if ds ≠ [] && ds.all isDigitChar then some (digitsVal 10 ds) else none
      | '-' :: ds => if ds ≠ [] && ds.all isDigitChar then some (-(digitsVal 10 ds : Int)) else none
      | ds => if ds ≠ [] && ds.all isDigitChar then some (digitsVal 10 ds) else none
    else none

/-- Parse an unsigned decimal literal `digits[.digits][exp]` or
`.digits[exp]`, consuming the whole input. -/
def parseDecLit (cs : List Char) : Option JsRat :=
  let ip := cs.takeWhile isDigitChar
  let r1 := cs.dropWhile isDigitChar
  match r1 with
  | '.' :: r2 =>
    let fp := r2.takeWhile isDigitChar
    let r3 := r2.dropWhile isDigitChar
    if ip = [] && fp = [] then none
    else (parseExpTail r3).map (fun e => mkDecimal (digitsVal 10 (ip ++ fp)) fp.length e)
  | _ =>
    if ip = [] then none
    else (parseExpTail r1).map (fun e => mkDecimal (digitsVal 10 ip) 0 e)

/-- Parse the part of a string numeric literal that may follow a sign:
a decimal literal or the exact word `Infinity` (hex is not allowed after a
sign in JavaScript). -/
def parseAfterSign (cs : List Char) : Option JsNum :=
  if cs = "Infinity".data then some .posInf
  else (parseDecLit cs).map .fin

/-- Parse an unsigned non-decimal literal `0x…`, `0o…` or `0b…`. -/
def parseRadixLit (cs : List Char) : Option JsNum :=
  match cs with
  | '0' :: c :: ds =>
    if c = 'x' || c = 'X' then
      if ds ≠ [] && ds.all isHexDigitChar then some (.fin ⟨digitsVal 16 ds, 0⟩) else none
    else if c = 'o' || c = 'O' then
      if ds ≠ [] && ds.all (fun d => '0' ≤ d && d ≤ '7') then some (.fin ⟨digitsVal 8 ds, 0⟩) else none
    else if c = 'b' || c = 'B' then
      if ds ≠ [] && ds.all (fun d => d = '0' || d = '1') then some (.fin ⟨digitsVal 2 ds, 0⟩) else none
    else none
  | _ => none

/-- Negation of a JavaScript number (for a leading `-` sign). -/
def JsNum.neg : JsNum → JsNum
  | .nan => .nan
  | .posInf => .negInf
  | .negInf => .posInf
  | .fin r => .fin ⟨-r.num, r.e10⟩

/-- String-to-number coercion `Number(string)`: trim, empty becomes `0`,
otherwise a fully consumed signed decimal / `Infinity` / radix literal,
anything else `NaN`. -/
def jsStrToNum (s : String) : JsNum :=
  match trimJsWs s.data with
  | [] => .fin ⟨0, 0⟩
  | '+' :: rest => (parseAfterSign rest).getD .nan
  | '-' :: rest => ((parseAfterSign rest).map JsNum.neg).getD .nan
  | cs => ((parseRadixLit cs).orElse (fun _ => parseAfterSign cs)).getD .nan

/-- Decimal rendering of a finite number, matching JavaScript printing on the
decimal fractions this program can produce (integer when `e10 = 0`,
otherwise digits with a point and trailing fraction zeros removed). -/
def JsRat.render (r : JsRat) : String :=
  let sign : List Char := if r.num < 0 then ['-'] else []
  let ds := Nat.toDigits 10 r.num.natAbs
  if r.e10 = 0 then String.mk (sign ++ ds)
  else
    let ds := if ds.length ≤ r.e10 then List.replicate (r.e10 + 1 - ds.length) '0' ++ ds else ds
    let ipart := ds.take (ds.length - r.e10)
    let fpart := ((ds.drop (ds.length - r.e10)).reverse.dropWhile (· = '0')).reverse
    if fpart = [] then String.mk (sign ++ ipart)
    else String.mk (sign ++ ipart ++ '.' :: fpart)

/-- `String(n)` for a JavaScript number. -/
def JsNum.render : JsNum → String
  | .nan => "NaN"
  | .posInf => "Infinity"
  | .negInf => "-Infinity"
  | .fin r => r.render

mutual
/-- String coercion `String(v)` / `ToString(v)`. -/
def jsToString : JsVal → String
  | .undefined => "undefined"
  | .null => "null"
  | .bool true => "true"
  | .bool false => "false"
  | .num n => n.render
  | .str s => s
  | .arr xs => String.intercalate "," (jsToStringElems xs)
  | .obj _ => "[object Object]"

/-- `Array.prototype.join(",")` renders `null` and `undefined` elements as
empty strings. -/
def jsToStringElems : List JsVal → List String
  | [] => []
  | x :: xs =>
    (match x with
     | .null => ""
     | .undefined => ""
     | v => jsToString v) :: jsToStringElems xs
end

/-- Number coercion `Number(v)`. -/
def jsToNumber : JsVal → JsNum
  | .undefined => .nan
  | .null => .fin ⟨0, 0⟩
  | .bool true => .fin ⟨1, 0⟩
  | .bool false => .fin ⟨0, 0⟩
  | .num n => n
  | .str s => jsStrToNum s
  | .arr xs => jsStrToNum (jsToString (.arr xs))
  | .obj _ => .nan

/-! ### Identifier codec (`toObjectIdSafe`, part_000 lines 92-94) -/

/-- A string is accepted by `new ObjectId(string)` exactly when it is a
24-character hexadecimal string. -/
def isValidObjectIdHex (s : String) : Bool :=
  s.data.length = 24 && s.data.all isHexDigitChar

/-- `toObjectIdSafe(id)`: `String(id)` is fed to the `ObjectId` constructor
inside `try`/`catch`; a failed parse yields `null` (here `none`) instead of a
propagated exception. -/
def toObjectIdSafe (v : JsVal) : Option String :=
  let s := jsToString v
  if isValidObjectIdHex s then some s else none

/-- A stored lesson reference: a parsed native identifier, or the raw string
fallback when parsing fails. -/
inductive LessonRef where
  | oid (hex : String)
  | raw (s : String)
deriving DecidableEq

/-- `toObjectIdSafe(id) || String(id)`: parsed identifier or raw string. -/
def refOf (v : JsVal) : LessonRef :=
  match toObjectIdSafe v with
  | some h => .oid h
  | none => .raw (jsToString v)

/-! ### Order normalizer (`buildOrderDoc`, part_000 lines 98-125 and
part_001 lines 68-89) -/

/-- One normalized entry of an itemized order:
`{ lessonId: oid ? oid : String(id), space: Number(it.space) }`. -/
structure OrderItem where
  lessonId : LessonRef
  space : JsNum
deriving DecidableEq

/-- A stored order document, minus the `createdAt` timestamp (stamped at the
moment of normalization and irrelevant to every claim, which compare
documents up to creation time). -/
inductive OrderDoc where
  | itemized (name phone : JsVal) (items : List OrderItem)
  | batch (name phone : JsVal) (lessonIDs : List LessonRef) (space : JsNum)

/-- Result of `buildOrderDoc`: `{ error }`, `{ doc }` or a thrown
`TypeError` (possible only from a property read on a `null`/`undefined`
array element, caught by the route handler as a 500). -/
inductive BuildResult where
  | err (msg : String)
  | ok (doc : OrderDoc)
  | exn

/-- Field read used by the destructuring `const {…} = body || {}`. -/
def getField (body : JsVal) (key : String) : JsVal :=
  match (if jsTruthy body then body else .obj []) with
  | .obj fs => (lookupField fs key).getD .undefined
  | _ => .undefined

/-- `typeof v === 'string'`. -/
def jsIsString : JsVal → Bool
  | .str _ => true
  | _ => false

/-- The character class `[A-Za-z ]` of the name pattern. -/
def isNameChar (c : Char) : Bool :=
  ('A' ≤ c && c ≤ 'Z') || ('a' ≤ c && c ≤ 'z') || c = ' '

/-- `nameOk`: `typeof name === 'string' && /^[A-Za-z ]+$/.test(name)`. -/
def nameOk (v : JsVal) : Bool :=
  match v with
  | .str s => !s.data.isEmpty && s.data.all isNameChar
  | _ => false

/-- `phoneOk`: `typeof phone === 'string' && /^[0-9]+$/.test(phone)`. -/
def phoneOk (v : JsVal) : Bool :=
  match v with
  | .str s => !s.data.isEmpty && s.data.all isDigitChar
  | _ => false

/-- Outcome of part_000's per-item validation loop
`for (const it of items) { const n = Number(it.space); … }`. -/
inductive ItemsCheck where
  | thrown
  | bad
  | pass

/-- The validation loop of part_000 (lines 105-108): the first event in
array order wins — a `null`/`undefined` element throws on `it.space`, an
element whose `space` is not a finite positive number yields the error. -/
def checkItemsSpace : List JsVal → ItemsCheck
  | [] => .pass
  | it :: rest =>
    match jsGetProp it "space" with
    | none => .thrown
    | some sv => if (jsToNumber sv).isPos then checkItemsSpace rest else .bad

/-- `it.lessonId || it.lessonID || it.id` (first truthy value, else the last
one); `none` models the throw on a `null`/`undefined` element. -/
def itemRefVal (it : JsVal) : Option JsVal :=
  match jsGetProp it "lessonId" with
  | none => none
  | some a =>
    if jsTruthy a then some a
    else
      match jsGetProp it "lessonID" with
      | none => none
      | some b => if jsTruthy b then some b else jsGetProp it "id"

/-- The id value an item resolves to (meaningful when the item is not
`null`/`undefined`, in which case no property read throws). -/
def itemIdVal (it : JsVal) : JsVal := (itemRefVal it).getD .undefined

/-- The `space` value of an item, read as `it.space`. -/
def itemSpaceVal (it : JsVal) : JsVal := (jsGetProp it "space").getD .undefined

/-- The item-normalizing map body (part_000 lines 109-113, identical in
part_001 lines 75-79). -/
def normalizeItem (it : JsVal) : Option OrderItem :=
  match itemRefVal it, jsGetProp it "space" with
  | some idv, some sv => some ⟨refOf idv, jsToNumber sv⟩
  | _, _ => none

/-- Itemized branch of part_000's `buildOrderDoc` (lines 104-115). -/
def buildItemized (name phone : JsVal) (its : List JsVal) : BuildResult :=
  match checkItemsSpace its with
  | .thrown => .exn
  | .bad => .err "Each item.space must be a positive number"
  | .pass =>
    match its.mapM normalizeItem with
    | some ns => .ok (.itemized name phone ns)
    | none => .exn

/-- Batch branch of part_000's `buildOrderDoc` (lines 117-124):
`Array.isArray(lessonIDs) && lessonIDs.length && typeof space !== 'undefined'`,
then the positivity check on `Number(space)`. -/
def buildBatch (name phone lidsV spaceV : JsVal) : BuildResult :=
  match lidsV with
  | .arr lids =>
    if lids.length ≠ 0 && !jsIsUndefined spaceV then
      let s := jsToNumber spaceV
      if s.isPos then .ok (.batch name phone (lids.map refOf) s)
      else .err "space must be a positive number"
    else .err "Provide items[] or lessonIDs[] with space"
  | _ => .err "Provide items[] or lessonIDs[] with space"

/-- `buildOrderDoc` of part_000 (lines 98-125). -/
def buildOrderDoc (body : JsVal) : BuildResult :=
  let nameV := getField body "name"
  let phoneV := getField body "phone"
  if !(nameOk nameV && phoneOk phoneV) then .err "Invalid name or phone"
  else
    match getField body "items" with
    | .arr its =>
      if its.length ≠ 0 then buildItemized nameV phoneV its
      else buildBatch nameV phoneV (getField body "lessonIDs") (getField body "space")
    | _ => buildBatch nameV phoneV (getField body "lessonIDs") (getField body "space")

/-- Itemized branch of part_001's `buildOrderDoc` (lines 74-81): the map
runs with no prior per-item space validation. -/
def buildItemizedV1 (name phone : JsVal) (its : List JsVal) : BuildResult :=
  match its.mapM normalizeItem with
  | some ns => .ok (.itemized name phone ns)
  | none => .exn

/-- Batch branch of part_001's `buildOrderDoc` (lines 83-86):
`Array.isArray(lessonIDs) && typeof space !== 'undefined'` — no length
check and no positivity check; `Number(space)` is stored as-is. -/
def buildBatchV1 (name phone lidsV spaceV : JsVal) : BuildResult :=
  match lidsV with
  | .arr lids =>
    if !jsIsUndefined spaceV then .ok (.batch name phone (lids.map refOf) (jsToNumber spaceV))
    else .err "Provide items[] or lessonIDs[] with space"
  | _ => .err "Provide items[] or lessonIDs[] with space"

/-- `buildOrderDoc` of part_001 (lines 68-89). -/
def buildOrderDocV1 (body : JsVal) : BuildResult :=
  let nameV := getField body "name"
  let phoneV := getField body "phone"
  if !(nameOk nameV && phoneOk phoneV) then .err "Invalid name or phone"
  else
    match getField body "items" with
    | .arr its =>
      if its.length ≠ 0 then buildItemizedV1 nameV phoneV its
      else buildBatchV1 nameV phoneV (getField body "lessonIDs") (getField body "space")
    | _ => buildBatchV1 nameV phoneV (getField body "lessonIDs") (getField body "space")

/-! ### Listing query builder (`GET /lessons`, part_000 lines 132-137) -/

/-- `Math.min(100, Math.max(1, Number(limit) || 50))`. -/
def effLimit (limit : JsVal) : JsNum :=
  jsMin (.fin ⟨100, 0⟩)
    (jsMax (.fin ⟨1, 0⟩) (if (jsToNumber limit).truthy then jsToNumber limit else .fin ⟨50, 0⟩))

/-- `Math.max(0, Number(skip) || 0)`. -/
def effSkip (skip : JsVal) : JsNum :=
  jsMax (.fin ⟨0, 0⟩) (if (jsToNumber skip).truthy then jsToNumber skip else .fin ⟨0, 0⟩)

/-- Keys of the `sortable` allowlist object. -/
def sortableKeys : List String := ["topic", "location", "price", "space", "_id"]

/-- The sort key effectively used in `.sort({ [sortKey]: sortDir })`:
`hasOwnProperty.call(sortable, sort)` coerces `sort` to a property key
(`String(sort)`), and so does the computed-key use of `sortKey`. -/
def effSortKey (sort : JsVal) : String :=
  if sortableKeys.contains (jsToString sort) then jsToString sort else "_id"

/-- ASCII lower-casing, the fragment of `toLowerCase` the inputs exercise. -/
def asciiLower (c : Char) : Char :=
  if 'A' ≤ c && c ≤ 'Z' then Char.ofNat (c.toNat + 32) else c

def asciiLowerStr (s : String) : String := String.mk (s.data.map asciiLower)

/-- `String(order).toLowerCase() === 'desc' ? -1 : 1`. -/
def effSortDir (order : JsVal) : Int :=
  if asciiLowerStr (jsToString order) = "desc" then -1 else 1

/-! ### Update handler (`PUT /lessons/:id`, part_000 lines 183-205,
identical in part_001 lines 139-161) -/

/-- Own-enumerable fields copied by `Object.assign({}, body)`: an object's
fields, an array's or string's indexed elements, nothing for primitives. -/
def toAssignFields : JsVal → List (String × JsVal)
  | .obj fs => fs
  | .arr xs => (xs.enum.map fun p => (toString p.1, p.2))
  | .str s => (s.data.enum.map fun p => (toString p.1, JsVal.str (String.mk [p.2])))
  | _ => []

/-- Remove every binding of a key (`delete update._id`). -/
def removeKey (fs : List (String × JsVal)) (key : String) : List (String × JsVal) :=
  fs.filter (fun p => p.1 ≠ key)

/-- Overwrite the binding of a key in place (`update.space = n`). -/
def setKey (fs : List (String × JsVal)) (key : String) (v : JsVal) : List (String × JsVal) :=
  fs.map (fun p => if p.1 = key then (key, v) else p)

/-- Observable outcome of the `PUT /lessons/:id` handler up to the storage
call: a 400 (for a bad id or non-numeric `space`) issued before any write,
or the `$set` write of the assembled update fields. -/
inductive PutResult where
  | invalidId
  | badSpace
  | write (fields : List (String × JsVal))

/-- The `PUT /lessons/:id` handler body (part_000 lines 185-198): parse the
path id, copy the body, delete `_id`, and when `update.space != null` reject
the request with 400 unless `Number(update.space)` is finite, storing the
coerced number otherwise. -/
def putLesson (id : String) (body : JsVal) : PutResult :=
  if isValidObjectIdHex id then
    match lookupField (removeKey (toAssignFields body) "_id") "space" with
    | some sv =>
      if jsIsNullish sv then .write (removeKey (toAssignFields body) "_id")
      else
        match jsToNumber sv with
        | .fin n => .write (setKey (removeKey (toAssignFields body) "_id") "space" (.num (.fin n)))
        | _ => .badSpace
    | none => .write (removeKey (toAssignFields body) "_id")
  else .invalidId

/-! ### Search term escaping (`escapeRegex`, part_000 line 96) and a regular
expression matcher for the fragment reachable from it -/

/-- The escaping character set of `escapeRegex`:
`/[.*+?^${}()|[\]\\]/`. -/
def regexMetaChars : List Char :=
  ['.', '*', '+', '?', '^', '$', '{', '}', '(', ')', '|', '[', ']', '\\']

/-- Replacement of one character under `escapeRegex`: `'\\$&'` for a
metacharacter, the character itself otherwise. -/
def escSeq (c : Char) : List Char :=
  if regexMetaChars.contains c then ['\\', c] else [c]

/-- `escapeRegex(s)`: prepend a backslash to every metacharacter
(`replace(/[.*+?^${}()|[\]\\]/g, '\\$&')`). -/
def escapeRegex (s : String) : String :=
  String.mk (s.data.flatMap escSeq)

/-- A token of the regular-expression fragment this development models:
a literal character, or the wildcard `.`. -/
inductive RTok where
  | lit (c : Char)
  | wild
deriving DecidableEq

/-- Parse a pattern into tokens.  A backslash followed by a metacharacter is
that character as a literal; an unescaped `.` is the wildcard; the remaining
unescaped metacharacters are regular-expression operators outside the
modelled fragment, so parsing them yields `none`. -/
def parseRegexToks : List Char → Option (List RTok)
  | [] => some []
  | c :: rest =>
    if c = '\\' then
      match rest with
      | [] => none
      | c2 :: rest2 =>
        if regexMetaChars.contains c2 then (parseRegexToks rest2).map (RTok.lit c2 :: ·)
        else none
    else if c = '.' then (parseRegexToks rest).map (RTok.wild :: ·)
    else if regexMetaChars.contains c then none
    else (parseRegexToks rest).map (RTok.lit c :: ·)

/-- Character match of one token under the `i` flag: literals compare
ASCII-case-insensitively; `.` matches everything but a line terminator. -/
def tokMatches : RTok → Char → Bool
  | .lit a, c => asciiLower a = asciiLower c
  | .wild, c => !(c = '\n' || c = '\r' || c = Char.ofNat 0x2028 || c = Char.ofNat 0x2029)

/-- Match a token list against the start of the candidate. -/
def matchHere : List RTok → List Char → Bool
  | [], _ => true
  | _ :: _, [] => false
  | t :: ts, c :: cs => tokMatches t c && matchHere ts cs

/-- Match a token list at some position of the candidate (what
`RegExp.test` does for a pattern without anchors). -/
def matchSomewhere (ts : List RTok) : List Char → Bool
  | [] => matchHere ts []
  | c :: cs => matchHere ts (c :: cs) || matchSomewhere ts cs

/-- `new RegExp(pattern, 'i').test(cand)` for patterns inside the modelled
fragment (`none` when the pattern falls outside it). -/
def regexTest (pattern cand : String) : Option Bool :=
  (parseRegexToks pattern.data).map (fun ts => matchSomewhere ts cand.data)

/-- `pat` occurs contiguously at the head of `s`. -/
def leadsWith : List Char → List Char → Bool
  | [], _ => true
  | _ :: _, [] => false
  | a :: as, b :: bs => a = b && leadsWith as bs

/-- `pat` occurs contiguously somewhere in `s`: a literal substring test. -/
def occursIn (pat : List Char) : List Char → Bool
  | [] => leadsWith pat []
  | c :: cs => leadsWith pat (c :: cs) || occursIn pat cs

/-- Case-insensitive literal substring test between two strings. -/
def substrCI (t c : String) : Bool :=
  occursIn (t.data.map asciiLower) (c.data.map asciiLower)

/-! ### Helper lemmas -/

lemma jsGetProp_eq_some (it : JsVal) (h : jsIsNullish it = false) (k : String) :
    jsGetProp it k = some ((jsGetProp it k).getD .undefined) := by
  cases it <;> simp_all [jsIsNullish, jsGetProp]

lemma jsIsNullish_of_getProp_eq_some (it : JsVal) (k : String) (sv : JsVal)
    (h : jsGetProp it k = some sv) : jsIsNullish it = false := by
  cases it <;> simp_all [jsIsNullish, jsGetProp]

lemma itemRefVal_isSome (it : JsVal) (h : jsIsNullish it = false) :
    ∃ v, itemRefVal it = some v := by
  cases it
  case undefined => simp [jsIsNullish] at h
  case null => simp [jsIsNullish] at h
  all_goals
    simp only [itemRefVal, jsGetProp]
    repeat' split
    all_goals exact ⟨_, rfl⟩

lemma itemRefVal_eq_some (it : JsVal) (h : jsIsNullish it = false) :
    itemRefVal it = some (itemIdVal it) := by
  obtain ⟨v, hv⟩ := itemRefVal_isSome it h
  rw [itemIdVal, hv]
  rfl

lemma normalizeItem_eq_some (it : JsVal) (h : jsIsNullish it = false) :
    normalizeItem it = some ⟨refOf (itemIdVal it), jsToNumber (itemSpaceVal it)⟩ := by
  rw [normalizeItem, itemRefVal_eq_some it h, jsGetProp_eq_some it h "space"]
  rfl

lemma checkItemsSpace_cons_none (it : JsVal) (rest : List JsVal)
    (hp : jsGetProp it "space" = none) : checkItemsSpace (it :: rest) = .thrown := by
  rw [checkItemsSpace, hp]

lemma checkItemsSpace_cons_some (it : JsVal) (rest : List JsVal) (sv : JsVal)
    (hp : jsGetProp it "space" = some sv) :
    checkItemsSpace (it :: rest)
      = if (jsToNumber sv).isPos then checkItemsSpace rest else .bad := by
  rw [checkItemsSpace, hp]

lemma checkItemsSpace_pass_forall (its : List JsVal) (h : checkItemsSpace its = .pass) :
    ∀ it ∈ its, jsIsNullish it = false ∧ (jsToNumber (itemSpaceVal it)).isPos = true := by
  induction its with
  | nil => intro it hit; cases hit
  | cons it rest ih =>
    rcases hp : jsGetProp it "space" with _ | sv
    · rw [checkItemsSpace_cons_none it rest hp] at h; cases h
    · rw [checkItemsSpace_cons_some it rest sv hp] at h
      by_cases hpos : (jsToNumber sv).isPos
      · rw [if_pos hpos] at h
        intro x hx
        rcases List.mem_cons.mp hx with rfl | hx'
        · refine ⟨jsIsNullish_of_getProp_eq_some x "space" sv hp, ?_⟩
          rw [itemSpaceVal, hp]
          simpa using hpos
        · exact ih h x hx'
      · rw [if_neg hpos] at h; cases h

lemma mapM_normalizeItem_of_pass (its : List JsVal) (h : checkItemsSpace its = .pass) :
    its.mapM normalizeItem
      = some (its.map fun it => ⟨refOf (itemIdVal it), jsToNumber (itemSpaceVal it)⟩) := by
  induction its with
  | nil => rfl
  | cons it rest ih =>
    rcases hp : jsGetProp it "space" with _ | sv
    · rw [checkItemsSpace_cons_none it rest hp] at h; cases h
    · rw [checkItemsSpace_cons_some it rest sv hp] at h
      by_cases hpos : (jsToNumber sv).isPos
      · rw [if_pos hpos] at h
        have hn := normalizeItem_eq_some it (jsIsNullish_of_getProp_eq_some it "space" sv hp)
        rw [List.mapM_cons, hn, ih h]
        rfl
      · rw [if_neg hpos] at h; cases h

lemma checkItemsSpace_bad_of_viol (its : List JsVal)
    (hacc : ∀ it ∈ its, jsIsNullish it = false)
    (hviol : ∃ it ∈ its, (jsToNumber (itemSpaceVal it)).isPos = false) :
    checkItemsSpace its = .bad := by
  induction its with
  | nil => rcases hviol with ⟨it, hit, _⟩; cases hit
  | cons it rest ih =>
    have hsp := jsGetProp_eq_some it (hacc it (List.mem_cons_self it rest)) "space"
    rw [checkItemsSpace_cons_some it rest _ hsp]
    by_cases hpos : (jsToNumber ((jsGetProp it "space").getD .undefined)).isPos
    · rw [if_pos hpos]
      rcases hviol with ⟨x, hx, hxbad⟩
      rcases List.mem_cons.mp hx with rfl | hx'
      · rw [itemSpaceVal] at hxbad
        rw [hxbad] at hpos
        cases hpos
      · exact ih (fun y hy => hacc y (List.mem_cons_of_mem it hy)) ⟨x, hx', hxbad⟩
    · rw [if_neg hpos]

lemma lookupField_removeKey_self (fs : List (String × JsVal)) (k : String) :
    lookupField (removeKey fs k) k = none := by
  induction fs with
  | nil => rfl
  | cons p rest ih =>
    by_cases h : p.1 = k
    · simpa [removeKey, h] using ih
    · simpa [removeKey, lookupField, h] using ih

lemma lookupField_setKey_ne (fs : List (String × JsVal)) (k k' : String) (v : JsVal)
    (h : k' ≠ k) : lookupField (setKey fs k v) k' = lookupField fs k' := by
  induction fs with
  | nil => rfl
  | cons p rest ih =>
    obtain ⟨pk, pv⟩ := p
    show lookupField ((if pk = k then (k, v) else (pk, pv)) :: setKey rest k v) k'
        = lookupField ((pk, pv) :: rest) k'
    by_cases hp : pk = k
    · have h2 : ¬ pk = k' := by
        intro hh
        exact h (by rw [← hh, hp])
      rw [if_pos hp]
      show (if k = k' then some v else lookupField (setKey rest k v) k')
          = (if pk = k' then some pv else lookupField rest k')
      rw [if_neg (fun hh => h hh.symm), if_neg h2, ih]
    · rw [if_neg hp]
      show (if pk = k' then some pv else lookupField (setKey rest k v) k')
          = (if pk = k' then some pv else lookupField rest k')
      by_cases hp' : pk = k'
      · rw [if_pos hp', if_pos hp']
      · rw [if_neg hp', if_neg hp', ih]

lemma buildOrderDoc_eq_itemized (body : JsVal) (its : List JsVal)
    (hn : nameOk (getField body "name") = true)
    (hp : phoneOk (getField body "phone") = true)
    (hitems : getField body "items" = .arr its) (hne : its ≠ []) :
    buildOrderDoc body = buildItemized (getField body "name") (getField body "phone") its := by
  rw [buildOrderDoc]
  simp only [hn, hp, hitems, Bool.and_self, Bool.not_true, Bool.false_eq_true, if_false]
  simp [List.length_eq_zero, hne]

lemma buildOrderDoc_eq_batch (body : JsVal)
    (hn : nameOk (getField body "name") = true)
    (hp : phoneOk (getField body "phone") = true)
    (hitems : getField body "items" = .undefined ∨ getField body "items" = .arr []) :
    buildOrderDoc body = buildBatch (getField body "name") (getField body "phone")
      (getField body "lessonIDs") (getField body "space") := by
  rcases hitems with hit | hit <;>
    (rw [buildOrderDoc]
     simp only [hn, hp, hit, Bool.and_self, Bool.not_true, Bool.false_eq_true, if_false]
     try rfl)

lemma buildBatch_ok (n p sv : JsVal) (lids : List JsVal) (hlne : lids ≠ [])
    (hdef : jsIsUndefined sv = false) (hpos : (jsToNumber sv).isPos = true) :
    buildBatch n p (.arr lids) sv = .ok (.batch n p (lids.map refOf) (jsToNumber sv)) := by
  rw [buildBatch]
  simp [List.length_eq_zero, hlne, hdef, hpos]

lemma jsRatLe_of_not_le (a b : JsRat) (h : JsRat.le a b = false) : JsRat.le b a = true :=
  decide_eq_true (le_of_not_le (of_decide_eq_false h))

lemma escapeRegex_data (s : String) :
    (escapeRegex s).data = s.data.flatMap escSeq := rfl

lemma parseRegexToks_escape (cs : List Char) :
    parseRegexToks (cs.flatMap escSeq) = some (cs.map RTok.lit) := by
  induction cs with
  | nil => rfl
  | cons c cs ih =>
    by_cases h : regexMetaChars.contains c
    · have hflat : (c :: cs).flatMap escSeq = '\\' :: c :: cs.flatMap escSeq := by
        rw [List.flatMap_cons, escSeq, if_pos h]
        rfl
      rw [hflat]
      rw [show parseRegexToks ('\\' :: c :: cs.flatMap escSeq)
            = if regexMetaChars.contains c
              then (parseRegexToks (cs.flatMap escSeq)).map (RTok.lit c :: ·)
              else none from rfl]
      rw [if_pos h, ih]
      rfl
    · have hb : c ≠ '\\' := by
        intro hh
        rw [hh] at h
        exact h (by decide)
      have hd : c ≠ '.' := by
        intro hh
        rw [hh] at h
        exact h (by decide)
      have hflat : (c :: cs).flatMap escSeq = c :: cs.flatMap escSeq := by
        rw [List.flatMap_cons, escSeq, if_neg h]
        rfl
      rw [hflat]
      rw [parseRegexToks.eq_def]
      show (if c = '\\' then
              (match cs.flatMap escSeq with
               | [] => none
               | c2 :: rest2 =>
                 if regexMetaChars.contains c2
                 then (parseRegexToks rest2).map (RTok.lit c2 :: ·)
                 else none)
            else if c = '.' then (parseRegexToks (cs.flatMap escSeq)).map (RTok.wild :: ·)
            else if regexMetaChars.contains c then none
            else (parseRegexToks (cs.flatMap escSeq)).map (RTok.lit c :: ·))
          = some ((c :: cs).map RTok.lit)
      rw [if_neg hb, if_neg hd, if_neg h, ih]
      rfl

lemma matchHere_lit (p : List Char) : ∀ s : List Char,
    matchHere (p.map RTok.lit) s = leadsWith (p.map asciiLower) (s.map asciiLower) := by
  induction p with
  | nil => intro s; rfl
  | cons a p ih =>
    intro s
    cases s with
    | nil => rfl
    | cons c s => simp [matchHere, leadsWith, tokMatches, ih]

lemma matchSomewhere_lit (p : List Char) : ∀ s : List Char,
    matchSomewhere (p.map RTok.lit) s = occursIn (p.map asciiLower) (s.map asciiLower) := by
  intro s
  induction s with
  | nil => exact matchHere_lit p []
  | cons c s ih => simp [matchSomewhere, occursIn, matchHere_lit, ih]

lemma leadsWith_iff (p : List Char) : ∀ s : List Char,
    leadsWith p s = true ↔ ∃ t, s = p ++ t := by
  induction p with
  | nil => intro s; simp [leadsWith]
  | cons a p ih =>
    intro s
    cases s with
    | nil =>
      simp only [leadsWith, List.cons_append]
      constructor
      · intro h; cases h
      · rintro ⟨t, ht⟩; cases ht
    | cons c s =>
      simp only [leadsWith, List.cons_append, Bool.and_eq_true, decide_eq_true_eq, ih,
        List.cons.injEq]
      constructor
      · rintro ⟨rfl, t, rfl⟩; exact ⟨t, rfl, rfl⟩
      · rintro ⟨t, rfl, rfl⟩; exact ⟨rfl, t, rfl⟩

lemma occursIn_iff (p : List Char) : ∀ s : List Char,
    occursIn p s = true ↔ ∃ u v, s = u ++ p ++ v := by
  intro s
  induction s with
  | nil =>
    rw [show occursIn p [] = leadsWith p [] from rfl, leadsWith_iff]
    constructor
    · rintro ⟨t, ht⟩
      exact ⟨[], t, by simpa using ht⟩
    · rintro ⟨u, v, huv⟩
      rw [List.append_assoc] at huv
      rcases List.append_eq_nil.mp huv.symm with ⟨rfl, h2⟩
      exact ⟨v, by simpa using huv⟩
  | cons c s ih =>
    rw [show occursIn p (c :: s) = (leadsWith p (c :: s) || occursIn p s) from rfl]
    simp only [Bool.or_eq_true, leadsWith_iff, ih]
    constructor
    · rintro (⟨t, ht⟩ | ⟨u, v, huv⟩)
      · exact ⟨[], t, by simpa using ht⟩
      · exact ⟨c :: u, v, by simp [huv]⟩
    · rintro ⟨u, v, huv⟩
      cases u with
      | nil => exact Or.inl ⟨v, by simpa using huv⟩
      | cons x u =>
        simp only [List.cons_append, List.cons.injEq] at huv
        exact Or.inr ⟨u, v, huv.2⟩

/-! ### Claim theorems -/

/-- Claim C6: matching the regular expression built from `escapeRegex(term)`
against any candidate (under the `i` flag) is exactly a case-insensitive
literal substring test — every metacharacter of the escaping charset is
treated literally — and concretely the term `"a.b"` does not match `"axb"`
once escaped, although the unescaped pattern `"a.b"` does. -/
theorem claim_C6 :
    (∀ term cand : String,
       regexTest (escapeRegex term) cand = some (substrCI term cand) ∧
       (substrCI term cand = true ↔
          ∃ u v, cand.data.map asciiLower = u ++ term.data.map asciiLower ++ v)) ∧
    regexTest (escapeRegex "a.b") "axb" = some false ∧
    regexTest "a.b" "axb" = some true := by
  refine ⟨fun term cand => ⟨?_, ?_⟩, rfl, rfl⟩
  · rw [regexTest, escapeRegex_data, parseRegexToks_escape]
    simp only [Option.map_some']
    rw [matchSomewhere_lit]
    rfl
  · rw [substrCI, occursIn_iff]

/-- Claim C2 counterexample: the claim says `limit=0` yields an effective
limit of 1, but the code computes `Number(limit) || 50` first, so the falsy
`0` falls back to the default 50 before clamping. -/
theorem claim_C2_counterexample :
    (effLimit (.str "0") = .fin ⟨1, 0⟩) ↔ False := by
  constructor
  · intro h
    have h50 : effLimit (.str "0") = .fin ⟨50, 0⟩ := rfl
    rw [h50] at h
    exact absurd h (by decide)
  · exact False.elim

/-- Claim C2 (amended): the effective limit is always a finite value clamped
into [1, 100]; `limit=500` yields 100, but `limit=0` — being falsy — takes
the default 50 (as do absent or non-numeric limits), `limit=-7` clamps to 1,
`skip=-5` clamps to 0, an unknown sort key falls back to `_id`, and
`order=DESC` in any letter case selects descending order. -/
theorem claim_C2_amended :
    (∀ v : JsVal, ∃ r : JsRat,
       effLimit v = .fin r ∧ JsRat.le ⟨1, 0⟩ r = true ∧ JsRat.le r ⟨100, 0⟩ = true) ∧
    effLimit (.str "500") = .fin ⟨100, 0⟩ ∧
    effLimit (.str "0") = .fin ⟨50, 0⟩ ∧
    effLimit .undefined = .fin ⟨50, 0⟩ ∧
    effLimit (.str "abc") = .fin ⟨50, 0⟩ ∧
    effLimit (.str "-7") = .fin ⟨1, 0⟩ ∧
    effSkip (.str "-5") = .fin ⟨0, 0⟩ ∧
    effSortKey (.str "unknown_field") = "_id" ∧
    effSortKey (.str "price") = "price" ∧
    effSortDir (.str "DESC") = -1 ∧
    effSortDir (.str "desc") = -1 ∧
    effSortDir (.str "asc") = 1 ∧
    effSortDir .undefined = 1 := by
  refine ⟨?_, rfl, rfl, rfl, rfl, rfl, rfl, rfl, rfl, rfl, rfl, rfl, rfl⟩
  intro v
  rw [effLimit]
  rcases hx : jsToNumber v with _ | _ | _ | r
  · exact ⟨⟨50, 0⟩, by norm_num [JsNum.truthy, jsMax, jsMin, JsRat.le]⟩
  · exact ⟨⟨100, 0⟩, by norm_num [JsNum.truthy, jsMax, jsMin, JsRat.le]⟩
  · exact ⟨⟨1, 0⟩, by norm_num [JsNum.truthy, jsMax, jsMin, JsRat.le]⟩
  · by_cases ht : (JsNum.fin r).truthy
    · rw [if_pos ht]
      by_cases h1 : JsRat.le ⟨1, 0⟩ r
      · rw [show jsMax (.fin ⟨1, 0⟩) (.fin r) = .fin r by rw [jsMax, if_pos h1]]
        by_cases h2 : JsRat.le ⟨100, 0⟩ r
        · rw [show jsMin (.fin ⟨100, 0⟩) (.fin r) = .fin ⟨100, 0⟩ by rw [jsMin, if_pos h2]]
          exact ⟨⟨100, 0⟩, rfl, by decide, by decide⟩
        · rw [show jsMin (.fin ⟨100, 0⟩) (.fin r) = .fin r by
            rw [jsMin, if_neg (by simpa using h2)]]
          exact ⟨r, rfl, h1, jsRatLe_of_not_le _ _ (by simpa using h2)⟩
      · rw [show jsMax (.fin ⟨1, 0⟩) (.fin r) = .fin ⟨1, 0⟩ by
          rw [jsMax, if_neg (by simpa using h1)]]
        exact ⟨⟨1, 0⟩, by norm_num [jsMin, JsRat.le]⟩
    · rw [if_neg ht]
      exact ⟨⟨50, 0⟩, by norm_num [jsMax, jsMin, JsRat.le]⟩

/-- Claim C1: for an order payload with valid name and phone and a non-empty
`items` array (of elements on which property access does not throw), if any
element's `space` does not coerce to a finite number strictly greater than
zero, `buildOrderDoc` rejects the payload with the error
`"Each item.space must be a positive number"`, so no document is produced. -/
theorem claim_C1 (body : JsVal) (its : List JsVal)
    (hname : nameOk (getField body "name") = true)
    (hphone : phoneOk (getField body "phone") = true)
    (hitems : getField body "items" = .arr its)
    (hne : its ≠ [])
    (hacc : ∀ it ∈ its, jsIsNullish it = false)
    (hviol : ∃ it ∈ its, (jsToNumber (itemSpaceVal it)).isPos = false) :
    buildOrderDoc body = .err "Each item.space must be a positive number" := by
  rw [buildOrderDoc_eq_itemized body its hname hphone hitems hne, buildItemized,
    checkItemsSpace_bad_of_viol its hacc hviol]

/-- Witness for claim C1 at a concrete payload: one item whose `space` is 0. -/
theorem claim_C1_witness :
    buildOrderDoc (.obj [("name", .str "Jane Doe"), ("phone", .str "12345"),
        ("items", .arr [.obj [("space", .num (.fin ⟨0, 0⟩))]])])
      = .err "Each item.space must be a positive number" :=
  claim_C1 _ [.obj [("space", .num (.fin ⟨0, 0⟩))]] rfl rfl rfl (by simp)
    (fun it hit => by rw [List.eq_of_mem_singleton hit]; rfl)
    ⟨.obj [("space", .num (.fin ⟨0, 0⟩))], List.mem_singleton.mpr rfl, rfl⟩

/-- Claim C3: for an order payload with valid name and phone, `items` absent
or empty, a non-empty `lessonIDs` array and a supplied `space`: a `space`
that does not coerce to a finite positive number aborts normalization with
`"space must be a positive number"`, and otherwise a batch document is built
whose `space` is the coerced number. -/
theorem claim_C3 (body : JsVal) (lids : List JsVal) (sv : JsVal)
    (hname : nameOk (getField body "name") = true)
    (hphone : phoneOk (getField body "phone") = true)
    (hitems : getField body "items" = .undefined ∨ getField body "items" = .arr [])
    (hlids : getField body "lessonIDs" = .arr lids) (hlne : lids ≠ [])
    (hsv : getField body "space" = sv) (hdef : jsIsUndefined sv = false) :
    ((jsToNumber sv).isPos = false →
       buildOrderDoc body = .err "space must be a positive number") ∧
    ((jsToNumber sv).isPos = true →
       buildOrderDoc body = .ok (.batch (getField body "name") (getField body "phone")
         (lids.map refOf) (jsToNumber sv))) := by
  have hb := buildOrderDoc_eq_batch body hname hphone hitems
  rw [hlids, hsv] at hb
  constructor
  · intro hpos
    rw [hb, buildBatch]
    simp [List.length_eq_zero, hlne, hdef, hpos]
  · intro hpos
    rw [hb, buildBatch_ok _ _ _ _ hlne hdef hpos]

/-- Witness for claim C3: the spec scenario
`{name:"Jane Doe", phone:"12345", lessonIDs:["<24-hex-id>"], space:2}` is
stored as a batch document with numeric `space` 2. -/
theorem claim_C3_witness :
    buildOrderDoc (.obj [("name", .str "Jane Doe"), ("phone", .str "12345"),
        ("lessonIDs", .arr [.str "0123456789abcdef01234567"]),
        ("space", .num (.fin ⟨2, 0⟩))])
      = .ok (.batch (.str "Jane Doe") (.str "12345")
          [.oid "0123456789abcdef01234567"] (.fin ⟨2, 0⟩)) :=
  (claim_C3 (.obj [("name", .str "Jane Doe"), ("phone", .str "12345"),
        ("lessonIDs", .arr [.str "0123456789abcdef01234567"]),
        ("space", .num (.fin ⟨2, 0⟩))])
    [.str "0123456789abcdef01234567"] (.num (.fin ⟨2, 0⟩))
    rfl rfl (Or.inl rfl) rfl (by simp) rfl rfl).2 rfl

/-- Claim C4: when a payload with valid name and phone supplies both a
non-empty `items` array and a non-empty `lessonIDs` array with `space`,
normalization is exactly the itemized branch — it can never produce a batch
document, and when the per-item space checks pass it produces the itemized
document — so the batch fields are ignored. -/
theorem claim_C4 (body : JsVal) (its lids : List JsVal) (sv : JsVal)
    (hname : nameOk (getField body "name") = true)
    (hphone : phoneOk (getField body "phone") = true)
    (hitems : getField body "items" = .arr its) (hne : its ≠ [])
    (hlids : getField body "lessonIDs" = .arr lids) (hlne : lids ≠ [])
    (hsv : getField body "space" = sv) (hdef : jsIsUndefined sv = false) :
    buildOrderDoc body = buildItemized (getField body "name") (getField body "phone") its ∧
    (∀ nm ph ls sp, buildOrderDoc body = .ok (.batch nm ph ls sp) → False) ∧
    (checkItemsSpace its = .pass →
       buildOrderDoc body = .ok (.itemized (getField body "name") (getField body "phone")
         (its.map fun it => ⟨refOf (itemIdVal it), jsToNumber (itemSpaceVal it)⟩))) := by
  have h1 := buildOrderDoc_eq_itemized body its hname hphone hitems hne
  refine ⟨h1, ?_, ?_⟩
  · intro nm ph ls sp hbad
    rw [h1, buildItemized] at hbad
    rcases hc : checkItemsSpace its with _ | _ | _ <;> rw [hc] at hbad
    · simp at hbad
    · simp at hbad
    · rcases hm : its.mapM normalizeItem with _ | ns <;> rw [hm] at hbad <;> simp at hbad
  · intro hck
    rw [h1, buildItemized, hck, mapM_normalizeItem_of_pass its hck]

/-- Witness for claim C4: a payload carrying both shapes yields the itemized
document and ignores `lessonIDs` and top-level `space`. -/
theorem claim_C4_witness :
    buildOrderDoc (.obj [("name", .str "A"), ("phone", .str "1"),
        ("items", .arr [.obj [("space", .num (.fin ⟨1, 0⟩))]]),
        ("lessonIDs", .arr [.str "x"]), ("space", .num (.fin ⟨5, 0⟩))])
      = .ok (.itemized (.str "A") (.str "1") [⟨.raw "undefined", .fin ⟨1, 0⟩⟩]) :=
  (claim_C4 (.obj [("name", .str "A"), ("phone", .str "1"),
        ("items", .arr [.obj [("space", .num (.fin ⟨1, 0⟩))]]),
        ("lessonIDs", .arr [.str "x"]), ("space", .num (.fin ⟨5, 0⟩))])
    [.obj [("space", .num (.fin ⟨1, 0⟩))]] [.str "x"] (.num (.fin ⟨5, 0⟩))
    rfl rfl rfl (by simp) rfl (by simp) rfl rfl).2.2 rfl

/-- Claim C5: the input validator accepts as name exactly the non-empty
strings of ASCII letters and spaces, accepts as phone exactly the non-empty
digit strings, rejects any string containing a character outside the class,
rejects the empty string, rejects every non-string value, and every such
failure surfaces as the same `"Invalid name or phone"` error. -/
theorem claim_C5 :
    (∀ s : String, nameOk (.str s) = true ↔
       (s.data ≠ [] ∧ ∀ c ∈ s.data, isNameChar c = true)) ∧
    (∀ s : String, ∀ c ∈ s.data, isNameChar c = false → nameOk (.str s) = false) ∧
    nameOk (.str "") = false ∧
    (∀ v : JsVal, jsIsString v = false → nameOk v = false ∧ phoneOk v = false) ∧
    (∀ s : String, phoneOk (.str s) = true ↔
       (s.data ≠ [] ∧ ∀ c ∈ s.data, isDigitChar c = true)) ∧
    (∀ body : JsVal,
       nameOk (getField body "name") = false ∨ phoneOk (getField body "phone") = false →
       buildOrderDoc body = .err "Invalid name or phone") := by
  refine ⟨?_, ?_, rfl, ?_, ?_, ?_⟩
  · intro s
    simp [nameOk, List.all_eq_true, List.isEmpty_iff]
  · intro s c hc hbad
    cases hall : s.data.all isNameChar with
    | false => simp [nameOk, hall]
    | true => exact absurd (List.all_eq_true.mp hall c hc) (by simp [hbad])
  · intro v hv
    cases v <;> simp_all [jsIsString, nameOk, phoneOk]
  · intro s
    simp [phoneOk, List.all_eq_true, List.isEmpty_iff]
  · intro body h
    rw [buildOrderDoc]
    rcases h with h | h <;> simp [h]

/-- Witness for claim C5 at concrete values: a valid name, a name with a
digit, a valid phone, and a `null` name failing with the common error. -/
theorem claim_C5_witness :
    nameOk (.str "Jane Doe") = true ∧ nameOk (.str "Jane5") = false ∧
    phoneOk (.str "12345") = true ∧
    buildOrderDoc (.obj [("name", .null), ("phone", .str "12345")])
      = .err "Invalid name or phone" :=
  ⟨(claim_C5.1 "Jane Doe").mpr ⟨by decide, by decide⟩,
   claim_C5.2.1 "Jane5" '5' (by decide) (by decide),
   (claim_C5.2.2.2.2.1 "12345").mpr ⟨by decide, by decide⟩,
   claim_C5.2.2.2.2.2 _ (Or.inl rfl)⟩

/-- Claim C7: the identifier codec is total — every malformed identifier
string yields an absent result rather than a failure — `refOf` then falls
back to the raw string, and an order whose embedded lesson ids are arbitrary
(parseable or not) is still stored, never rejected because of its ids. -/
theorem claim_C7 :
    (∀ s : String, isValidObjectIdHex s = false → toObjectIdSafe (.str s) = none) ∧
    (∀ s : String, toObjectIdSafe (.str s) = none ∨ toObjectIdSafe (.str s) = some s) ∧
    (∀ v : JsVal, toObjectIdSafe v = none → refOf v = .raw (jsToString v)) ∧
    (∀ body : JsVal, ∀ lids : List JsVal, ∀ sv : JsVal,
       nameOk (getField body "name") = true → phoneOk (getField body "phone") = true →
       (getField body "items" = .undefined ∨ getField body "items" = .arr []) →
       getField body "lessonIDs" = .arr lids → lids ≠ [] →
       getField body "space" = sv → jsIsUndefined sv = false → (jsToNumber sv).isPos = true →
       buildOrderDoc body = .ok (.batch (getField body "name") (getField body "phone")
         (lids.map refOf) (jsToNumber sv))) := by
  refine ⟨?_, ?_, ?_, ?_⟩
  · intro s h
    simp [toObjectIdSafe, jsToString, h]
  · intro s
    by_cases h : isValidObjectIdHex s <;> simp [toObjectIdSafe, jsToString, h]
  · intro v h
    simp [refOf, h]
  · intro body lids sv hname hphone hitems hlids hlne hsv hdef hpos
    have hb := buildOrderDoc_eq_batch body hname hphone hitems
    rw [hlids, hsv] at hb
    rw [hb, buildBatch_ok _ _ _ _ hlne hdef hpos]

/-- Witness for claim C7: a malformed id parses to `none`, falls back to the
raw string, and an order embedding it is still stored. -/
theorem claim_C7_witness :
    toObjectIdSafe (.str "nope") = none ∧
    buildOrderDoc (.obj [("name", .str "A"), ("phone", .str "1"),
        ("lessonIDs", .arr [.str "nope"]), ("space", .num (.fin ⟨1, 0⟩))])
      = .ok (.batch (.str "A") (.str "1") [.raw "nope"] (.fin ⟨1, 0⟩)) :=
  ⟨claim_C7.1 "nope" rfl,
   claim_C7.2.2.2 (.obj [("name", .str "A"), ("phone", .str "1"),
        ("lessonIDs", .arr [.str "nope"]), ("space", .num (.fin ⟨1, 0⟩))])
     [.str "nope"] (.num (.fin ⟨1, 0⟩))
     rfl rfl (Or.inl rfl) rfl (by simp) rfl rfl rfl⟩

/-- Claim C8: a `PUT /lessons/:id` request with a valid id whose body holds
a `space` value (other than `null`) not coercing to a finite number ends as
the 400 response `badSpace`, a result that carries no storage write; and
whenever the handler does write, the written fields never contain `_id`. -/
theorem claim_C8 :
    (∀ id : String, ∀ body sv : JsVal,
       isValidObjectIdHex id = true →
       lookupField (removeKey (toAssignFields body) "_id") "space" = some sv →
       jsIsNullish sv = false →
       (jsToNumber sv).isFinite = false →
       putLesson id body = .badSpace) ∧
    (∀ id : String, ∀ body : JsVal, ∀ fs : List (String × JsVal),
       putLesson id body = .write fs → lookupField fs "_id" = none) := by
  constructor
  · intro id body sv hid hsv hnn hfin
    rw [putLesson, if_pos hid, hsv]
    rcases hn : jsToNumber sv with _ | _ | _ | r
    · simp [hnn, hn]
    · simp [hnn, hn]
    · simp [hnn, hn]
    · rw [hn] at hfin
      simp [JsNum.isFinite] at hfin
  · intro id body fs h
    rw [putLesson] at h
    by_cases hid : isValidObjectIdHex id = true
    · rw [if_pos hid] at h
      rcases hsp : lookupField (removeKey (toAssignFields body) "_id") "space" with _ | sv
      · rw [hsp] at h
        simp at h
        rw [← h]
        exact lookupField_removeKey_self _ _
      · rw [hsp] at h
        by_cases hnn : jsIsNullish sv = true
        · simp [hnn] at h
          rw [← h]
          exact lookupField_removeKey_self _ _
        · rcases hn : jsToNumber sv with _ | _ | _ | r
          · simp [hnn, hn] at h
          · simp [hnn, hn] at h
          · simp [hnn, hn] at h
          · simp [hnn, hn] at h
            rw [← h, lookupField_setKey_ne _ _ _ _ (by decide)]
            exact lookupField_removeKey_self _ _
    · rw [if_neg hid] at h
      simp at h

/-- Witness for claim C8: a valid id with `space:"abc"` yields the 400
before any write, and a write coming from a body that smuggles `_id`
has the `_id` field stripped. -/
theorem claim_C8_witness :
    putLesson "0123456789abcdef01234567" (.obj [("space", .str "abc")]) = .badSpace ∧
    lookupField [("space", JsVal.num (.fin ⟨3, 0⟩))] "_id" = none :=
  ⟨claim_C8.1 "0123456789abcdef01234567" (.obj [("space", .str "abc")]) (.str "abc")
     rfl rfl rfl rfl,
   claim_C8.2 "0123456789abcdef01234567" (.obj [("_id", .str "x"), ("space", .str "3")])
     [("space", JsVal.num (.fin ⟨3, 0⟩))] rfl⟩

lemma buildItemized_ok_V1 (n p : JsVal) (its : List JsVal) (d : OrderDoc)
    (h : buildItemized n p its = .ok d) : buildItemizedV1 n p its = .ok d := by
  rw [buildItemized] at h
  rw [buildItemizedV1]
  rcases hc : checkItemsSpace its with _ | _ | _ <;> rw [hc] at h
  · simp at h
  · simp at h
  · rcases hm : its.mapM normalizeItem with _ | ns <;> rw [hm] at h
    · simp at h
    · simpa using h

lemma buildBatch_arr (n p sv : JsVal) (lids : List JsVal) :
    buildBatch n p (.arr lids) sv
      = if lids.length ≠ 0 && !jsIsUndefined sv then
          (if (jsToNumber sv).isPos then .ok (.batch n p (lids.map refOf) (jsToNumber sv))
           else .err "space must be a positive number")
        else .err "Provide items[] or lessonIDs[] with space" := rfl

lemma buildBatchV1_arr (n p sv : JsVal) (lids : List JsVal) :
    buildBatchV1 n p (.arr lids) sv
      = if !jsIsUndefined sv then .ok (.batch n p (lids.map refOf) (jsToNumber sv))
        else .err "Provide items[] or lessonIDs[] with space" := rfl

lemma buildBatch_ok_V1 (n p lv sv : JsVal) (d : OrderDoc)
    (h : buildBatch n p lv sv = .ok d) : buildBatchV1 n p lv sv = .ok d := by
  cases lv
  case arr lids =>
    rw [buildBatch_arr] at h
    rw [buildBatchV1_arr]
    by_cases hc : (lids.length ≠ 0 && !jsIsUndefined sv) = true
    · rw [if_pos hc] at h
      have hc2 : (!jsIsUndefined sv) = true := by
        simp only [Bool.and_eq_true] at hc
        exact hc.2
      rw [if_pos hc2]
      by_cases hp : (jsToNumber sv).isPos = true
      · rw [if_pos hp] at h
        exact h
      · rw [if_neg hp] at h
        exact absurd h (by simp)
    · rw [if_neg hc] at h
      exact absurd h (by simp)
  all_goals simp [buildBatch] at h

lemma buildItemized_err_msg (n p : JsVal) (its : List JsVal) (m : String)
    (h : buildItemized n p its = .err m) :
    m = "Each item.space must be a positive number" := by
  rw [buildItemized] at h
  rcases hc : checkItemsSpace its with _ | _ | _ <;> rw [hc] at h
  · simp at h
  · injection h with h'
    exact h'.symm
  · rcases hm : its.mapM normalizeItem with _ | ns <;> rw [hm] at h <;> simp at h

lemma buildItemizedV1_ne_err (n p : JsVal) (its : List JsVal) (m : String) :
    buildItemizedV1 n p its ≠ .err m := by
  rw [buildItemizedV1]
  rcases hm : its.mapM normalizeItem with _ | ns <;> simp [hm]

lemma buildBatch_err_msg (n p lv sv : JsVal) (m : String)
    (h : buildBatch n p lv sv = .err m) :
    m = "space must be a positive number" ∨
    m = "Provide items[] or lessonIDs[] with space" := by
  cases lv
  case arr lids =>
    rw [buildBatch_arr] at h
    by_cases hc : (lids.length ≠ 0 && !jsIsUndefined sv) = true
    · rw [if_pos hc] at h
      by_cases hp : (jsToNumber sv).isPos = true
      · rw [if_pos hp] at h
        exact absurd h (by simp)
      · rw [if_neg hp] at h
        exact Or.inl (BuildResult.err.inj h).symm
    · rw [if_neg hc] at h
      exact Or.inr (BuildResult.err.inj h).symm
  all_goals
    simp [buildBatch] at h
    exact Or.inr h.symm

lemma buildBatchV1_err_msg (n p lv sv : JsVal) (m : String)
    (h : buildBatchV1 n p lv sv = .err m) :
    m = "Provide items[] or lessonIDs[] with space" := by
  cases lv
  case arr lids =>
    rw [buildBatchV1_arr] at h
    by_cases hdef : (!jsIsUndefined sv) = true
    · rw [if_pos hdef] at h
      exact absurd h (by simp)
    · rw [if_neg hdef] at h
      exact (BuildResult.err.inj h).symm
  all_goals
    simp [buildBatchV1] at h
    exact h.symm

lemma buildOrderDoc_shape (body : JsVal) :
    (buildOrderDoc body = .err "Invalid name or phone" ∧
     buildOrderDocV1 body = .err "Invalid name or phone") ∨
    (∃ its, buildOrderDoc body
        = buildItemized (getField body "name") (getField body "phone") its ∧
      buildOrderDocV1 body
        = buildItemizedV1 (getField body "name") (getField body "phone") its) ∨
    (buildOrderDoc body
       = buildBatch (getField body "name") (getField body "phone")
           (getField body "lessonIDs") (getField body "space") ∧
     buildOrderDocV1 body
       = buildBatchV1 (getField body "name") (getField body "phone")
           (getField body "lessonIDs") (getField body "space")) := by
  cases hv : nameOk (getField body "name") && phoneOk (getField body "phone")
  · left
    constructor
    · rw [buildOrderDoc]
      simp [hv]
    · rw [buildOrderDocV1]
      simp [hv]
  · cases hits : getField body "items"
    case arr its =>
      by_cases hne : its = []
      · right; right
        rw [hne] at hits
        constructor
        · rw [buildOrderDoc]
          simp [hv, hits]
        · rw [buildOrderDocV1]
          simp [hv, hits]
      · right; left
        refine ⟨its, ?_, ?_⟩
        · rw [buildOrderDoc]
          simp [hv, hits, List.length_eq_zero, hne]
        · rw [buildOrderDocV1]
          simp [hv, hits, List.length_eq_zero, hne]
    all_goals
      right; right
      constructor
      · rw [buildOrderDoc]
        simp [hv, hits]
      · rw [buildOrderDocV1]
        simp [hv, hits]

/-- Claim C9 counterexample: the two variants' `buildOrderDoc` are not
extensionally equal — a payload with one zero-space item is rejected by
part_000 but stored by part_001, which has no per-item space validation. -/
theorem claim_C9_counterexample :
    buildOrderDoc (.obj [("name", .str "A"), ("phone", .str "1"),
        ("items", .arr [.obj [("space", .num (.fin ⟨0, 0⟩))]])])
      = .err "Each item.space must be a positive number" ∧
    buildOrderDocV1 (.obj [("name", .str "A"), ("phone", .str "1"),
        ("items", .arr [.obj [("space", .num (.fin ⟨0, 0⟩))]])])
      = .ok (.itemized (.str "A") (.str "1") [⟨.raw "undefined", .fin ⟨0, 0⟩⟩]) ∧
    ((BuildResult.err "Each item.space must be a positive number"
        = BuildResult.ok (.itemized (.str "A") (.str "1") [⟨.raw "undefined", .fin ⟨0, 0⟩⟩]))
      ↔ False) :=
  ⟨rfl, rfl, ⟨fun h => BuildResult.noConfusion h, False.elim⟩⟩

/-- Claim C9 (amended): the two variants agree on every payload part_000
accepts — any document part_000 produces, part_001 produces identically
(up to the creation timestamp, which the model omits) — and they reject
name/phone identically; they differ only in the validations part_001 lacks
(per-item space, non-empty `lessonIDs`, positive batch `space`). -/
theorem claim_C9_amended :
    (∀ body : JsVal, ∀ d : OrderDoc,
       buildOrderDoc body = .ok d → buildOrderDocV1 body = .ok d) ∧
    (∀ body : JsVal,
       buildOrderDoc body = .err "Invalid name or phone" ↔
       buildOrderDocV1 body = .err "Invalid name or phone") := by
  constructor
  · intro body d h
    rcases buildOrderDoc_shape body with ⟨h1, h2⟩ | ⟨its, h1, h2⟩ | ⟨h1, h2⟩
    · rw [h1] at h
      simp at h
    · rw [h1] at h
      rw [h2]
      exact buildItemized_ok_V1 _ _ _ _ h
    · rw [h1] at h
      rw [h2]
      exact buildBatch_ok_V1 _ _ _ _ _ h
  · intro body
    rcases buildOrderDoc_shape body with ⟨h1, h2⟩ | ⟨its, h1, h2⟩ | ⟨h1, h2⟩
    · rw [h1, h2]
    · rw [h1, h2]
      refine iff_of_false (fun h => ?_) (fun h => buildItemizedV1_ne_err _ _ _ _ h)
      have := buildItemized_err_msg _ _ _ _ h
      exact absurd this (by decide)
    · rw [h1, h2]
      refine iff_of_false (fun h => ?_) (fun h => ?_)
      · rcases buildBatch_err_msg _ _ _ _ _ h with h' | h' <;> exact absurd h' (by decide)
      · exact absurd (buildBatchV1_err_msg _ _ _ _ _ h) (by decide)

/-- Witness for claim C9 (amended): a batch document accepted by part_000 is
produced identically by part_001. -/
theorem claim_C9_amended_witness :
    buildOrderDocV1 (.obj [("name", .str "Jane Doe"), ("phone", .str "12345"),
        ("lessonIDs", .arr [.str "0123456789abcdef01234567"]),
        ("space", .num (.fin ⟨2, 0⟩))])
      = .ok (.batch (.str "Jane Doe") (.str "12345")
          [.oid "0123456789abcdef01234567"] (.fin ⟨2, 0⟩)) :=
  claim_C9_amended.1 (.obj [("name", .str "Jane Doe"), ("phone", .str "12345"),
        ("lessonIDs", .arr [.str "0123456789abcdef01234567"]),
        ("space", .num (.fin ⟨2, 0⟩))])
    (.batch (.str "Jane Doe") (.str "12345")
        [.oid "0123456789abcdef01234567"] (.fin ⟨2, 0⟩)) rfl

/-- Claim C10 counterexample: an item supplying only falsy id values does
not store the literal string `"undefined"` — with `id: 0` the stored
`lessonId` is the string `"0"` (`String(it.id)`), not `"undefined"`. -/
theorem claim_C10_counterexample :
    buildOrderDoc (.obj [("name", .str "A"), ("phone", .str "1"),
        ("items", .arr [.obj [("id", .num (.fin ⟨0, 0⟩)),
          ("space", .num (.fin ⟨1, 0⟩))]])])
      = .ok (.itemized (.str "A") (.str "1") [⟨.raw "0", .fin ⟨1, 0⟩⟩]) ∧
    ((LessonRef.raw "0" = LessonRef.raw "undefined") ↔ False) :=
  ⟨rfl, by decide⟩

/-- Claim C10 (amended): an itemized payload passing the name/phone and
per-item space checks always normalizes successfully — each stored
`lessonId` is the codec result of the first truthy of `lessonId`,
`lessonID`, `id`, falling back to the value of `id` (so to `String(it.id)`
in the document) when all three are falsy, and to the literal string
`"undefined"` exactly when the fields are absent. -/
theorem claim_C10_amended (body : JsVal) (its : List JsVal)
    (hname : nameOk (getField body "name") = true)
    (hphone : phoneOk (getField body "phone") = true)
    (hitems : getField body "items" = .arr its) (hne : its ≠ [])
    (hck : checkItemsSpace its = .pass) :
    buildOrderDoc body = .ok (.itemized (getField body "name") (getField body "phone")
      (its.map fun it => ⟨refOf (itemIdVal it), jsToNumber (itemSpaceVal it)⟩)) ∧
    (∀ it ∈ its, jsTruthy ((jsGetProp it "lessonId").getD .undefined) = false →
       jsTruthy ((jsGetProp it "lessonID").getD .undefined) = false →
       itemIdVal it = (jsGetProp it "id").getD .undefined) ∧
    refOf .undefined = .raw "undefined" := by
  refine ⟨?_, ?_, rfl⟩
  · rw [buildOrderDoc_eq_itemized body its hname hphone hitems hne, buildItemized, hck,
      mapM_normalizeItem_of_pass its hck]
  · intro it hit h1 h2
    have hnn := (checkItemsSpace_pass_forall its hck it hit).1
    obtain ⟨v1, hv1⟩ : ∃ v, jsGetProp it "lessonId" = some v :=
      ⟨_, jsGetProp_eq_some it hnn "lessonId"⟩
    obtain ⟨v2, hv2⟩ : ∃ v, jsGetProp it "lessonID" = some v :=
      ⟨_, jsGetProp_eq_some it hnn "lessonID"⟩
    rw [hv1] at h1
    rw [hv2] at h2
    simp only [Option.getD_some] at h1 h2
    rw [itemIdVal, itemRefVal, hv1]
    simp [h1, hv2, h2]

/-- Witness for claim C10 (amended): an item with no id fields at all stores
the literal string `"undefined"`. -/
theorem claim_C10_amended_witness :
    buildOrderDoc (.obj [("name", .str "A"), ("phone", .str "1"),
        ("items", .arr [.obj [("space", .num (.fin ⟨2, 0⟩))]])])
      = .ok (.itemized (.str "A") (.str "1") [⟨.raw "undefined", .fin ⟨2, 0⟩⟩]) :=
  (claim_C10_amended (.obj [("name", .str "A"), ("phone", .str "1"),
        ("items", .arr [.obj [("space", .num (.fin ⟨2, 0⟩))]])])
    [.obj [("space", .num (.fin ⟨2, 0⟩))]] rfl rfl rfl (by simp) rfl).1

end Backend
